import Mathlib

/-!
Shallow embedding of `src/operations/vue_object.ts` from vue-declassify:
the translation engine that rewrites a decorated Vue class component into
an object-literal component wrapped in `Vue.extend(...)`.

The ts-morph input nodes are modelled as plain structures carrying exactly
the observations the engine makes of them (type-classification flags,
type-annotation text, initializer text, accessor bodies as statement texts,
documentation blocks).  The `ts.factory` output nodes are modelled as a
small inductive AST.  The mutable `SourceFile` is modelled as an explicit
state record threaded through the translation; a thrown exception is an
`Except.error` result, and mutations performed before the throw persist in
the returned state, as they do on the real mutable source file.
-/

namespace VueDeclassify

/-- A TypeScript type-annotation node, as the engine consumes it: either the
original annotation node (identified by its source text) or the synthesized
`any` keyword node (`f.createKeywordTypeNode(ts.SyntaxKind.AnyKeyword)`). -/
inductive TsTypeNode where
  | fromText : String → TsTypeNode
  | anyKeyword : TsTypeNode
  deriving DecidableEq

/-- A parameter declaration node: its name and optional type annotation.
The engine passes the setter parameter node through structurally
(`setParameter.compilerNode`), so the structure is the node. -/
structure TsParamDecl where
  name : String
  typeNode : Option TsTypeNode
  deriving DecidableEq

mutual

/-- Output expression nodes built via `ts.factory`. -/
inductive TsExpr where
  | ident : String → TsExpr
  | strLit : String → TsExpr
  | falseLit : TsExpr
  | objLit : List TsMember → TsExpr
  | callExpr : TsExpr → List TsExpr → TsExpr

/-- Output statement nodes built via `ts.factory`. -/
inductive TsStmt where
  | exprStmt : TsExpr → TsStmt
  | returnStmt : TsExpr → TsStmt

/-- Output object-literal members built via `ts.factory`:
property assignments, method declarations
(name, parameters, optional return type, body block), and a member carrying
a synthetic leading comment (`ts.addSyntheticLeadingComment`). -/
inductive TsMember where
  | propAssign : String → TsExpr → TsMember
  | methodDecl : String → List TsParamDecl → Option TsTypeNode → List TsStmt → TsMember
  | withComment : String → TsMember → TsMember

end

/-- One documentation block (`JSDoc`) as the engine observes it:
`docs[0].compilerNode.comment` and `getFullText()`. -/
structure JSDocModel where
  comment : Option String
  fullText : String

/-- The semantic type of a prop declaration as returned by `getType()`:
the primitive classification flags and the number of call signatures. -/
structure TypeInfo where
  isString : Bool
  isNumber : Bool
  isBoolean : Bool
  callSignatureCount : Nat

/-- A prop field declaration (`PropertyDeclaration`) as observed by the
props translator: name, semantic type, optional explicit type-annotation
node text (`getTypeNode()`), and documentation. -/
structure PropDecl where
  name : String
  type : TypeInfo
  typeNodeText : Option String
  jsDocs : List JSDocModel

/-- A `PropertyAssignment` taken from the decorator argument
(the `default` / `required` entries of a prop's options): its name, the
source text of its initializer, and the initializer node itself. -/
structure MorphPropertyAssignment where
  name : String
  initializerText : String
  compilerInit : TsExpr

/-- The compiler node of a decorator-argument property assignment, as pushed
through unchanged by the engine (`prop.required.compilerNode`). -/
def MorphPropertyAssignment.compilerNode (m : MorphPropertyAssignment) : TsMember :=
  .propAssign m.name m.compilerInit

/-- One Prop Model of the structured component model. -/
structure PropModel where
  declaration : PropDecl
  default : Option MorphPropertyAssignment
  required : Option MorphPropertyAssignment

/-- A data field declaration as observed by the data translator: name,
optional initializer text (`getInitializer()` may be absent, in which case
`getInitializerOrThrow()` throws), optional type-annotation text, docs. -/
structure DataDecl where
  name : String
  initializerText : Option String
  typeNodeText : Option String
  jsDocs : List JSDocModel

/-- A get-accessor as observed by the computed translator: optional return
type annotation and optional body (a block given by its top-level statement
texts, which is all `transformBlock` reads of it). -/
structure GetAccessor where
  returnTypeNode : Option TsTypeNode
  body : Option (List String)

/-- A set-accessor: its parameter list and optional body. -/
structure SetAccessor where
  params : List TsParamDecl
  body : Option (List String)

/-- One entry of the computed mapping: optional getter, optional setter. -/
structure ComputedPair where
  getter : Option GetAccessor
  setter : Option SetAccessor

/-- The class declaration as observed by the engine: `getName()` (where
`getNameOrThrow()` throws on `none`) and its documentation blocks. -/
structure ClassDecl where
  name : Option String
  jsDocs : List JSDocModel

/-- The structured component model produced by the extraction collaborator
(`vue_class.extract`): the class declaration, the decorator's passthrough
property entries (their compiler nodes, pushed through unchanged), the
props, the data fields, and the computed mapping in entry order. -/
structure VueModel where
  declaration : ClassDecl
  decoratorProperties : List TsMember
  props : List PropModel
  data : List DataDecl
  computed : List (String × ComputedPair)

/-- A default-export assignment inserted by `source.addExportAssignment`.
The engine hands the assembled component expression to the printing layer
(`printNode`), which is an external collaborator; the model records the
expression itself. -/
structure ExportAssignment where
  expression : TsExpr
  isExportEquals : Bool
  leadingDocs : Option String

/-- The mutable source unit, reduced to the observations the engine makes:
the named imports per module, whether the original class declaration is
still present, the export assignments, and how many times `formatText`
ran. -/
structure SourceState where
  namedImports : List (String × List String)
  classPresent : Bool
  exports : List ExportAssignment
  formatCount : Nat

/-- Append the named imports that are not yet present (deduplication). -/
def ensureNames (existing : List String) (named : List String) : List String :=
  existing ++ named.filter (fun n => !existing.contains n)

/-- Modelled from the spec: the import-registration utility `imports.ensure`
(its source, `src/operations/imports.ts`, is not part of the given sources).
Per the spec it "idempotently guarantees the listed named imports exist in
the unit, deduplicating across repeated calls": the first import entry for
the module gains the missing names; absent any entry, one is created. -/
def ensureImports : List (String × List String) → String → List String → List (String × List String)
  | [], m, named => [(m, named)]
  | (m', ns) :: rest, m, named =>
    if m' = m then (m', ensureNames ns named) :: rest
    else (m', ns) :: ensureImports rest m named

/-- Modelled from the spec: `imports.ensure(source, module, named)` acting on
the source-state model. -/
def ensure (s : SourceState) (moduleName : String) (named : List String) : SourceState :=
  { s with namedImports := ensureImports s.namedImports moduleName named }

/-- JavaScript `string.startsWith(prefix)`, embedded structurally over the
character list so that it is kernel-computable. -/
def strStartsWith (s p : String) : Bool :=
  decide (s.toList.take p.toList.length = p.toList)

/-- JavaScript `string.endsWith(suffix)`, embedded structurally over the
character list so that it is kernel-computable. -/
def strEndsWith (s p : String) : Bool :=
  decide (s.toList.drop (s.toList.length - p.toList.length) = p.toList)
    && decide (p.toList.length ≤ s.toList.length)

/-- JavaScript `string.split(sep)` for a one-character separator, embedded
structurally over the character list. -/
def splitLines (s : String) (sep : Char) : List String :=
  (s.toList.splitOn sep).map String.mk

/-- JavaScript `array.join(sep)` on a list of lines. -/
def joinWith (sep : String) : List String → String
  | [] => ""
  | [x] => x
  | x :: y :: xs => x ++ sep ++ joinWith sep (y :: xs)

/-- The comment text handed to `ts.addSyntheticLeadingComment` by
`createDocumentation`: the original comment re-processed line by line. -/
def buildCommentText (comment : String) : String :=
  "*\n" ++ joinWith "\n" ((splitLines comment '\n').map (fun line => " * " ++ line)) ++ "\n "

/-- `createDocumentation`: if the first documentation block carries comment
text, attach the reconstructed multi-line comment to the target; otherwise
return the target unchanged. -/
def createDocumentation (target : TsMember) (docs : List JSDocModel) : TsMember :=
  match docs with
  | [] => target
  | doc :: _ =>
    match doc.comment with
    | none => target
    | some comment => .withComment (buildCommentText comment) target

/-- `transformBlock`: re-render every top-level statement of the block as an
expression statement holding an identifier with the statement's text. -/
def transformBlock (block : List String) : List TsStmt :=
  block.map (fun statement => .exprStmt (.ident statement))

/-- `classNameToPropName`: the `name` entry, a single-quoted string literal
of the class name; `getNameOrThrow` throws when the class is anonymous. -/
def classNameToPropName (declaration : ClassDecl) : Except String TsMember :=
  match declaration.name with
  | none => .error "getNameOrThrow"
  | some n => .ok (.propAssign "name" (.strLit n))

/-- `classPropTypeToObjectPropType`: the `type` entry of a prop.  Primitive
types map to the bare `String`/`Number`/`Boolean` identifiers; otherwise the
`PropType` import is ensured, the explicit type annotation is read
(`getTypeNodeOrThrow` throws when absent), a base of `Function`/`Array`/
`Object` is chosen heuristically, and the entry is rendered as
`Base as PropType<T>`.  The state is returned alongside because
`imports.ensure` mutates the source before the possible throw. -/
def classPropTypeToObjectPropType (s : SourceState) (prop : PropDecl) :
    Except String TsMember × SourceState :=
  if prop.type.isString then
    (.ok (.propAssign "type" (.ident "String")), s)
  else if prop.type.isNumber then
    (.ok (.propAssign "type" (.ident "Number")), s)
  else if prop.type.isBoolean then
    (.ok (.propAssign "type" (.ident "Boolean")), s)
  else
    let s' := ensure s "vue" ["PropType"]
    match prop.typeNodeText with
    | none => (.error "getTypeNodeOrThrow", s')
    | some actualType =>
      let baseType : String :=
        if prop.type.callSignatureCount > 0 then "Function"
        else if strStartsWith actualType "Array<" || strEndsWith actualType "[]" then "Array"
        else "Object"
      (.ok (.propAssign "type" (.ident (baseType ++ " as PropType<" ++ actualType ++ ">"))), s')

/-- `classPropOptionsToObjectPropOptions`: exactly one of the `default` /
`required` entries, with `default` taking precedence and `required: false`
synthesized when neither is supplied. -/
def classPropOptionsToObjectPropOptions (prop : PropModel) : List TsMember :=
  match prop.default with
  | some d => [.propAssign "default" (.ident d.initializerText)]
  | none =>
    match prop.required with
    | some r => [r.compilerNode]
    | none => [.propAssign "required" .falseLit]

/-- `classPropToObjectProp`: one prop entry, an object literal of the type
entry followed by the option entries, with documentation reattached. -/
def classPropToObjectProp (s : SourceState) (prop : PropModel) :
    Except String TsMember × SourceState :=
  match classPropTypeToObjectPropType s prop.declaration with
  | (.error e, s') => (.error e, s')
  | (.ok typeEntry, s') =>
    (.ok (createDocumentation
      (.propAssign prop.declaration.name
        (.objLit (typeEntry :: classPropOptionsToObjectPropOptions prop)))
      prop.declaration.jsDocs), s')

/-- The per-prop loop of `classPropsToObjectProps`. -/
def classPropsToObjectPropsAux (s : SourceState) :
    List PropModel → Except String (List TsMember) × SourceState
  | [] => (.ok [], s)
  | p :: ps =>
    match classPropToObjectProp s p with
    | (.error e, s') => (.error e, s')
    | (.ok m, s') =>
      match classPropsToObjectPropsAux s' ps with
      | (.error e, s'') => (.error e, s'')
      | (.ok ms, s'') => (.ok (m :: ms), s'')

/-- `classPropsToObjectProps`: the `props` entry. -/
def classPropsToObjectProps (s : SourceState) (props : List PropModel) :
    Except String TsMember × SourceState :=
  match classPropsToObjectPropsAux s props with
  | (.error e, s') => (.error e, s')
  | (.ok ms, s') => (.ok (.propAssign "props" (.objLit ms)), s')

/-- The per-field loop of `classDataToObjectData`: one property assignment
per data field, value text `init` or `init as type`, documentation
reattached; `getInitializerOrThrow` throws when the initializer is absent. -/
def classDataEntries : List DataDecl → Except String (List TsMember)
  | [] => .ok []
  | d :: ds =>
    match d.initializerText with
    | none => .error "getInitializerOrThrow"
    | some valueText =>
      let initializer : TsExpr :=
        match d.typeNodeText with
        | some t => .ident (valueText ++ " as " ++ t)
        | none => .ident valueText
      match classDataEntries ds with
      | .error e => .error e
      | .ok rest =>
        .ok (createDocumentation (.propAssign d.name initializer) d.jsDocs :: rest)

/-- `classDataToObjectData`: the zero-parameter `data` method returning an
object literal with one entry per data field. -/
def classDataToObjectData (data : List DataDecl) : Except String TsMember :=
  match classDataEntries data with
  | .error e => .error e
  | .ok properties =>
    .ok (.methodDecl "data" [] none [.returnStmt (.objLit properties)])

/-- `classComputedGetterToObjectComputedGetter`: a getter-only computed
property becomes one method named after the property; when the getter has
no explicit return type, the `any` placeholder is used and a diagnostic is
logged.  Returns the emitted member together with the logged diagnostics. -/
def classComputedGetterToObjectComputedGetter (name : String) (getter : GetAccessor) :
    Except String (TsMember × List String) :=
  let pair : TsTypeNode × List String :=
    match getter.returnTypeNode with
    | some t => (t, [])
    | none =>
      (.anyKeyword, ["Computed getter 「" ++ name ++ "」 will require a manual return type."])
  match getter.body with
  | none => .error "getBodyOrThrow"
  | some b => .ok (.methodDecl name [] (some pair.1) (transformBlock b), pair.2)

/-- `classComputedPropertyToObjectComputedProperty`: a getter/setter pair
becomes an object literal with `get` and `set` methods; the setter must have
a parameter, and the getter's return type is taken from that parameter's
annotation (placeholder plus diagnostic when unannotated). -/
def classComputedPropertyToObjectComputedProperty
    (name : String) (getter : GetAccessor) (setter : SetAccessor) :
    Except String (TsMember × List String) :=
  match setter.params.head? with
  | none => .error "Computed setter does not seem to have a parameter."
  | some setParameter =>
    match setter.body with
    | none => .error "getBodyOrThrow"
    | some sb =>
      let setterDeclaration : TsMember :=
        .methodDecl "set" [setParameter] none (transformBlock sb)
      let pair : TsTypeNode × List String :=
        match setParameter.typeNode with
        | some t => (t, [])
        | none =>
          (.anyKeyword,
            ["Computed getter for 「" ++ name ++ "」 will require a manual return type."])
      match getter.body with
      | none => .error "getBodyOrThrow"
      | some gb =>
        let getterDeclaration : TsMember :=
          .methodDecl "get" [] (some pair.1) (transformBlock gb)
        .ok (.propAssign name (.objLit [getterDeclaration, setterDeclaration]), pair.2)

/-- The per-entry loop of `classComputedToObjectComputed`: getter+setter
pairs and lone getters are translated, a lone setter throws, an empty pair
contributes nothing. -/
def classComputedEntries : List (String × ComputedPair) →
    Except String (List TsMember × List String)
  | [] => .ok ([], [])
  | (name, pair) :: rest =>
    match pair.getter with
    | some getter =>
      let head :=
        match pair.setter with
        | some setter => classComputedPropertyToObjectComputedProperty name getter setter
        | none => classComputedGetterToObjectComputedGetter name getter
      match head with
      | .error e => .error e
      | .ok (m, logs) =>
        match classComputedEntries rest with
        | .error e => .error e
        | .ok (ms, logs') => .ok (m :: ms, logs ++ logs')
    | none =>
      match pair.setter with
      | some _ => .error "Found an illegal computed setter without a getter."
      | none => classComputedEntries rest

/-- `classComputedToObjectComputed`: the `computed` entry. -/
def classComputedToObjectComputed (computed : List (String × ComputedPair)) :
    Except String (TsMember × List String) :=
  match classComputedEntries computed with
  | .error e => .error e
  | .ok (properties, logs) => .ok (.propAssign "computed" (.objLit properties), logs)

/-- `classToObject`: the engine.  Extraction is a collaborator, so its
result is the second argument; `none` is the no-op case.  Otherwise the
entries are accumulated in order (name, passthrough, props, data,
computed), the class is removed, the `Vue.extend` export is inserted, and
the unit is reformatted.  A throw anywhere surfaces as `Except.error`, with
the state as mutated up to that point. -/
def classToObject (s : SourceState) (extracted : Option VueModel) :
    Except String Unit × SourceState :=
  match extracted with
  | none => (.ok (), s)
  | some vue =>
    match classNameToPropName vue.declaration with
    | .error e => (.error e, s)
    | .ok nameEntry =>
      match (if vue.props.length > 0 then
          match classPropsToObjectProps s vue.props with
          | (.error e, s') => (.error e, s')
          | (.ok m, s') => (.ok [m], s')
        else ((.ok [], s) : Except String (List TsMember) × SourceState)) with
      | (.error e, s') => (.error e, s')
      | (.ok propsEntries, s') =>
        match (if vue.data.length > 0 then
            match classDataToObjectData vue.data with
            | .error e => .error e
            | .ok m => .ok [m]
          else (.ok [] : Except String (List TsMember))) with
        | .error e => (.error e, s')
        | .ok dataEntries =>
          match (if vue.computed.length > 0 then
              match classComputedToObjectComputed vue.computed with
              | .error e => .error e
              | .ok (m, _) => .ok [m]
            else (.ok [] : Except String (List TsMember))) with
          | .error e => (.error e, s')
          | .ok computedEntries =>
            let properties : List TsMember :=
              nameEntry :: (vue.decoratorProperties ++ propsEntries ++ dataEntries ++ computedEntries)
            let component : TsExpr :=
              .callExpr (.ident "Vue.extend") [.objLit properties]
            let documentation : Option String :=
              vue.declaration.jsDocs.head?.map (fun doc => doc.fullText)
            (.ok (),
              { s' with
                classPresent := false
                exports := s'.exports ++
                  [{ expression := component, isExportEquals := false,
                     leadingDocs := documentation }]
                formatCount := s'.formatCount + 1 })

/-- The key under which an emitted object-literal member appears. -/
def memberKey : TsMember → Option String
  | .propAssign k _ => some k
  | .methodDecl n _ _ _ => some n
  | .withComment _ m => memberKey m

/-- How many members of a list appear under the given key. -/
def countKey (k : String) (ms : List TsMember) : Nat :=
  (ms.filter (fun m => decide (memberKey m = some k))).length

/-- The value text emitted for a data field: the initializer text, cast to
the annotated type when an annotation is present. -/
def dataValueText (d : DataDecl) : String :=
  match d.typeNodeText with
  | some t => d.initializerText.getD "" ++ " as " ++ t
  | none => d.initializerText.getD ""

/-- The named imports recorded for a module (first matching entry). -/
def moduleNamed (s : SourceState) (m : String) : List String :=
  ((s.namedImports.find? (fun e => e.1 == m)).map Prod.snd).getD []

/-- How many times the name `PropType` occurs among the named imports from
the `vue` module. -/
def vuePropTypeCount (s : SourceState) : Nat :=
  (moduleNamed s "vue").count "PropType"

/-- A prop whose semantic type is none of the three primitives; such props
take the `PropType`-wrapped emission path. -/
def nonPrimitive (q : PropModel) : Bool :=
  !(q.declaration.type.isString || q.declaration.type.isNumber || q.declaration.type.isBoolean)

/-- The unit-level observables that only the final replacement step may
change: class presence, exports, and the reformat counter. -/
def sameUnitShape (s s' : SourceState) : Prop :=
  s'.classPresent = s.classPresent ∧ s'.exports = s.exports ∧ s'.formatCount = s.formatCount

theorem sameUnitShape_refl (s : SourceState) : sameUnitShape s s :=
  ⟨rfl, rfl, rfl⟩

theorem sameUnitShape_trans {s s' s'' : SourceState}
    (h : sameUnitShape s s') (h' : sameUnitShape s' s'') : sameUnitShape s s'' :=
  ⟨h'.1.trans h.1, h'.2.1.trans h.2.1, h'.2.2.trans h.2.2⟩

theorem sameUnitShape_ensure (s : SourceState) (m : String) (n : List String) :
    sameUnitShape s (ensure s m n) :=
  ⟨rfl, rfl, rfl⟩

theorem classPropTypeToObjectPropType_shape (s : SourceState) (p : PropDecl) :
    sameUnitShape s (classPropTypeToObjectPropType s p).2 := by
  unfold classPropTypeToObjectPropType
  split
  · exact sameUnitShape_refl s
  · split
    · exact sameUnitShape_refl s
    · split
      · exact sameUnitShape_refl s
      · split
        · exact sameUnitShape_ensure s "vue" ["PropType"]
        · exact sameUnitShape_ensure s "vue" ["PropType"]

theorem classPropToObjectProp_shape (s : SourceState) (p : PropModel) :
    sameUnitShape s (classPropToObjectProp s p).2 := by
  unfold classPropToObjectProp
  split <;> rename_i heq <;>
    simpa [heq] using classPropTypeToObjectPropType_shape s p.declaration

theorem classPropsToObjectPropsAux_shape (ps : List PropModel) (s : SourceState) :
    sameUnitShape s (classPropsToObjectPropsAux s ps).2 := by
  induction ps generalizing s with
  | nil => exact sameUnitShape_refl s
  | cons p ps ih =>
    unfold classPropsToObjectPropsAux
    split <;> rename_i heq
    · simpa [heq] using classPropToObjectProp_shape s p
    · rename_i m s'
      have h1 : sameUnitShape s s' := by
        simpa [heq] using classPropToObjectProp_shape s p
      split <;> rename_i heq2
      · have h2 := ih s'
        rw [heq2] at h2
        exact sameUnitShape_trans h1 h2
      · have h2 := ih s'
        rw [heq2] at h2
        exact sameUnitShape_trans h1 h2

theorem classPropsToObjectProps_shape (s : SourceState) (ps : List PropModel) :
    sameUnitShape s (classPropsToObjectProps s ps).2 := by
  unfold classPropsToObjectProps
  split <;> rename_i heq <;>
    simpa [heq] using classPropsToObjectPropsAux_shape ps s

theorem joinWith_cons (sep a : String) (l : List String) (h : l ≠ []) :
    joinWith sep (a :: l) = a ++ sep ++ joinWith sep l := by
  cases l with
  | nil => exact absurd rfl h
  | cons y ys => rfl

theorem joinWith_append_single (sep b : String) (l : List String) (h : l ≠ []) :
    joinWith sep (l ++ [b]) = joinWith sep l ++ sep ++ b := by
  induction l with
  | nil => exact absurd rfl h
  | cons x xs ih =>
    cases xs with
    | nil => rfl
    | cons y ys =>
      show x ++ sep ++ joinWith sep ((y :: ys) ++ [b]) =
        (x ++ sep ++ joinWith sep (y :: ys)) ++ sep ++ b
      rw [ih (by simp)]
      simp [String.append_assoc]

theorem splitLines_ne_nil (s : String) (sep : Char) : splitLines s sep ≠ [] := by
  have h := List.splitOnP_ne_nil (fun c => c == sep) s.toList
  show (s.toList.splitOnP (fun c => c == sep)).map String.mk ≠ []
  simpa [List.map_eq_nil_iff] using h

theorem buildCommentText_eq (c : String) :
    buildCommentText c =
      joinWith "\n" ("*" :: ((splitLines c '\n').map (fun line => " * " ++ line) ++ [" "])) := by
  have hne : (splitLines c '\n').map (fun line => " * " ++ line) ≠ [] := by
    simpa [List.map_eq_nil_iff] using splitLines_ne_nil c '\n'
  rw [joinWith_cons "\n" "*" _ (by simp), joinWith_append_single "\n" " " _ hne]
  unfold buildCommentText
  have h1 : ("*\n" : String) = "*" ++ "\n" := by decide
  have h2 : ("\n " : String) = "\n" ++ " " := by decide
  rw [h1, h2]
  simp [String.append_assoc]

/-- An empty source unit: no imports, class present, no exports. -/
def emptySource : SourceState := ⟨[], true, [], 0⟩

/-- A prop declaration with semantic type `string`. -/
def propXDecl : PropDecl := ⟨"x", ⟨true, false, false, 0⟩, none, []⟩

/-- A getter with an explicit return type annotation. -/
def getterTyped : GetAccessor := ⟨some (.fromText "number"), some ["return this.x"]⟩

/-- A getter without a return type annotation. -/
def getterNoType : GetAccessor := ⟨none, some ["return this.x"]⟩

/-- A setter whose parameter carries an explicit type annotation. -/
def setterTyped : SetAccessor := ⟨[⟨"value", some (.fromText "string")⟩], some ["this.x = value"]⟩

/-- A setter whose parameter carries no type annotation. -/
def setterUntyped : SetAccessor := ⟨[⟨"value", none⟩], some ["this.x = value"]⟩

/-- A setter with no parameter at all. -/
def setterNoParam : SetAccessor := ⟨[], some ["this.x = 1"]⟩

/-- Claim C9: when the extraction collaborator returns no component model
for a source unit, the engine is a no-op: it returns without removing,
inserting, or reformatting anything, leaving the source unit untouched. -/
theorem claim_C9 (s : SourceState) : classToObject s none = (.ok (), s) := rfl

/-- Claim C10: for a prop whose type is not string, number, or boolean and
whose declaration carries no explicit type-annotation node, the props
translator fails (the `getTypeNodeOrThrow` precondition throws) rather than
classifying the prop. -/
theorem claim_C10 (s : SourceState) (p : PropDecl)
    (h1 : p.type.isString = false) (h2 : p.type.isNumber = false)
    (h3 : p.type.isBoolean = false) (h4 : p.typeNodeText = none) :
    classPropTypeToObjectPropType s p =
      (.error "getTypeNodeOrThrow", ensure s "vue" ["PropType"]) := by
  simp [classPropTypeToObjectPropType, h1, h2, h3, h4]

theorem claim_C10_witness :
    classPropTypeToObjectPropType emptySource ⟨"x", ⟨false, false, false, 0⟩, none, []⟩ =
      (.error "getTypeNodeOrThrow", ensure emptySource "vue" ["PropType"]) :=
  claim_C10 emptySource ⟨"x", ⟨false, false, false, 0⟩, none, []⟩ rfl rfl rfl rfl

/-- Claim C2: for every prop, exactly one of a `default` entry or a
`required` entry is emitted, never both and never neither: a present
default initializer yields a `default` entry carrying the initializer text
verbatim (dropping any `required` expression); else a present required
expression is emitted structurally unchanged; else `required: false` is
synthesized. -/
theorem claim_C2 (p : PropModel) :
    (∀ d, p.default = some d →
      classPropOptionsToObjectPropOptions p =
        [.propAssign "default" (.ident d.initializerText)]) ∧
    (∀ r, p.default = none → p.required = some r →
      classPropOptionsToObjectPropOptions p = [r.compilerNode]) ∧
    (p.default = none → p.required = none →
      classPropOptionsToObjectPropOptions p = [.propAssign "required" .falseLit]) ∧
    ((∀ r, p.required = some r → r.name = "required") →
      countKey "default" (classPropOptionsToObjectPropOptions p) +
        countKey "required" (classPropOptionsToObjectPropOptions p) = 1) := by
  refine ⟨?_, ?_, ?_, ?_⟩
  · intro d hd
    simp [classPropOptionsToObjectPropOptions, hd]
  · intro r h0 hr
    simp [classPropOptionsToObjectPropOptions, h0, hr]
  · intro h0 hr
    simp [classPropOptionsToObjectPropOptions, h0, hr]
  · intro hname
    cases hd : p.default with
    | some d => simp [classPropOptionsToObjectPropOptions, hd, countKey, memberKey]
    | none =>
      cases hr : p.required with
      | some r =>
        have hn := hname r hr
        simp [classPropOptionsToObjectPropOptions, hd, hr, countKey, memberKey,
          MorphPropertyAssignment.compilerNode, hn]
      | none => simp [classPropOptionsToObjectPropOptions, hd, hr, countKey, memberKey]

theorem claim_C2_witness :
    classPropOptionsToObjectPropOptions ⟨propXDecl, some ⟨"default", "1", .ident "1"⟩, none⟩ =
      [.propAssign "default" (.ident "1")] ∧
    classPropOptionsToObjectPropOptions ⟨propXDecl, none, some ⟨"required", "true", .ident "true"⟩⟩ =
      [MorphPropertyAssignment.compilerNode ⟨"required", "true", .ident "true"⟩] ∧
    classPropOptionsToObjectPropOptions ⟨propXDecl, none, none⟩ =
      [.propAssign "required" .falseLit] ∧
    countKey "default"
        (classPropOptionsToObjectPropOptions
          ⟨propXDecl, none, some ⟨"required", "true", .ident "true"⟩⟩) +
      countKey "required"
        (classPropOptionsToObjectPropOptions
          ⟨propXDecl, none, some ⟨"required", "true", .ident "true"⟩⟩) = 1 :=
  ⟨(claim_C2 _).1 _ rfl, (claim_C2 _).2.1 _ rfl rfl, (claim_C2 _).2.2.1 rfl rfl,
    (claim_C2 _).2.2.2 (fun r hr => by cases hr; rfl)⟩

/-- Claim C8: when the first documentation block carries comment text, the
documentation preserver attaches a leading structured comment whose text is
the newline-join of a `*` opener, one ` * line` per original comment line,
and a closing padding line; with no documentation block, or none carrying
comment text, the target is returned unchanged. -/
theorem claim_C8 (target : TsMember) (doc : JSDocModel) (docs : List JSDocModel) (c : String) :
    (doc.comment = some c →
      createDocumentation target (doc :: docs) =
        .withComment
          (joinWith "\n" ("*" :: ((splitLines c '\n').map (fun line => " * " ++ line) ++ [" "])))
          target) ∧
    (createDocumentation target [] = target) ∧
    (doc.comment = none → createDocumentation target (doc :: docs) = target) := by
  refine ⟨?_, rfl, ?_⟩
  · intro h
    simp [createDocumentation, h, buildCommentText_eq]
  · intro h
    simp [createDocumentation, h]

theorem claim_C8_witness :
    createDocumentation (.propAssign "x" .falseLit) [⟨some "a\nb", "doc"⟩] =
      .withComment
        (joinWith "\n"
          ("*" :: ((splitLines "a\nb" '\n').map (fun line => " * " ++ line) ++ [" "])))
        (.propAssign "x" .falseLit) ∧
    createDocumentation (.propAssign "x" .falseLit) [⟨none, "doc"⟩] = .propAssign "x" .falseLit :=
  ⟨(claim_C8 (.propAssign "x" .falseLit) ⟨some "a\nb", "doc"⟩ [] "a\nb").1 rfl,
    (claim_C8 (.propAssign "x" .falseLit) ⟨none, "doc"⟩ [] "").2.2 rfl⟩

/-- Claim C3: for a computed mapping entry, a getter/setter pair whose
setter has no parameter fails; a setter without a getter fails; a getter
without a setter succeeds, with a diagnostic logged iff the getter has no
explicit return type annotation (in which case the emitted return type is
the permissive `any` placeholder, else the getter's explicit type). -/
theorem claim_C3 (name : String) (g : GetAccessor) (st : SetAccessor)
    (b : List String) (t : TsTypeNode) :
    (st.params = [] →
      classComputedToObjectComputed [(name, ⟨some g, some st⟩)] =
        .error "Computed setter does not seem to have a parameter.") ∧
    (classComputedToObjectComputed [(name, ⟨none, some st⟩)] =
      .error "Found an illegal computed setter without a getter.") ∧
    (g.body = some b → g.returnTypeNode = some t →
      classComputedToObjectComputed [(name, ⟨some g, none⟩)] =
        .ok (.propAssign "computed" (.objLit [.methodDecl name [] (some t) (transformBlock b)]),
          [])) ∧
    (g.body = some b → g.returnTypeNode = none →
      classComputedToObjectComputed [(name, ⟨some g, none⟩)] =
        .ok
          (.propAssign "computed"
            (.objLit [.methodDecl name [] (some .anyKeyword) (transformBlock b)]),
          ["Computed getter 「" ++ name ++ "」 will require a manual return type."])) := by
  refine ⟨?_, rfl, ?_, ?_⟩
  · intro h
    simp [classComputedToObjectComputed, classComputedEntries,
      classComputedPropertyToObjectComputedProperty, h]
  · intro hb ht
    simp [classComputedToObjectComputed, classComputedEntries,
      classComputedGetterToObjectComputedGetter, hb, ht]
  · intro hb ht
    simp [classComputedToObjectComputed, classComputedEntries,
      classComputedGetterToObjectComputedGetter, hb, ht]

theorem claim_C3_witness :
    classComputedToObjectComputed [("x", ⟨some getterTyped, some setterNoParam⟩)] =
      .error "Computed setter does not seem to have a parameter." ∧
    classComputedToObjectComputed [("x", ⟨none, some setterTyped⟩)] =
      .error "Found an illegal computed setter without a getter." ∧
    classComputedToObjectComputed [("x", ⟨some getterTyped, none⟩)] =
      .ok
        (.propAssign "computed"
          (.objLit
            [.methodDecl "x" [] (some (.fromText "number"))
              (transformBlock ["return this.x"])]),
        []) ∧
    classComputedToObjectComputed [("x", ⟨some getterNoType, none⟩)] =
      .ok
        (.propAssign "computed"
          (.objLit [.methodDecl "x" [] (some .anyKeyword) (transformBlock ["return this.x"])]),
        ["Computed getter 「" ++ "x" ++ "」 will require a manual return type."]) :=
  ⟨(claim_C3 "x" getterTyped setterNoParam ["return this.x"] (.fromText "number")).1 rfl,
    (claim_C3 "x" getterTyped setterTyped ["return this.x"] (.fromText "number")).2.1,
    (claim_C3 "x" getterTyped setterNoParam ["return this.x"] (.fromText "number")).2.2.1 rfl rfl,
    (claim_C3 "x" getterNoType setterNoParam ["return this.x"] (.fromText "number")).2.2.2 rfl rfl⟩

/-- Claim C4: for a computed pair with both a getter and a setter, the
emitted `get` method's return type is forced to the setter parameter's
explicit type when that parameter is annotated, with no diagnostic and
regardless of any return type annotation on the original getter; when the
setter parameter is unannotated, the `any` placeholder is used and a
diagnostic is logged. -/
theorem claim_C4 (name : String) (g : GetAccessor) (st : SetAccessor)
    (p : TsParamDecl) (ps : List TsParamDecl) (sb gb : List String) (t : TsTypeNode)
    (hps : st.params = p :: ps) (hsb : st.body = some sb) (hgb : g.body = some gb) :
    (p.typeNode = some t →
      classComputedPropertyToObjectComputedProperty name g st =
        .ok
          (.propAssign name
            (.objLit
              [.methodDecl "get" [] (some t) (transformBlock gb),
                .methodDecl "set" [p] none (transformBlock sb)]),
          [])) ∧
    (p.typeNode = none →
      classComputedPropertyToObjectComputedProperty name g st =
        .ok
          (.propAssign name
            (.objLit
              [.methodDecl "get" [] (some .anyKeyword) (transformBlock gb),
                .methodDecl "set" [p] none (transformBlock sb)]),
          ["Computed getter for 「" ++ name ++ "」 will require a manual return type."])) := by
  constructor
  · intro ht
    simp [classComputedPropertyToObjectComputedProperty, hps, hsb, hgb, ht]
  · intro ht
    simp [classComputedPropertyToObjectComputedProperty, hps, hsb, hgb, ht]

theorem claim_C4_witness :
    classComputedPropertyToObjectComputedProperty "x" getterNoType setterTyped =
      .ok
        (.propAssign "x"
          (.objLit
            [.methodDecl "get" [] (some (.fromText "string"))
              (transformBlock ["return this.x"]),
              .methodDecl "set" [⟨"value", some (.fromText "string")⟩] none
                (transformBlock ["this.x = value"])]),
        []) ∧
    classComputedPropertyToObjectComputedProperty "x" getterNoType setterUntyped =
      .ok
        (.propAssign "x"
          (.objLit
            [.methodDecl "get" [] (some .anyKeyword) (transformBlock ["return this.x"]),
              .methodDecl "set" [⟨"value", none⟩] none (transformBlock ["this.x = value"])]),
        ["Computed getter for 「" ++ "x" ++ "」 will require a manual return type."]) :=
  ⟨(claim_C4 "x" getterNoType setterTyped ⟨"value", some (.fromText "string")⟩ []
      ["this.x = value"] ["return this.x"] (.fromText "string") rfl rfl rfl).1 rfl,
    (claim_C4 "x" getterNoType setterUntyped ⟨"value", none⟩ []
      ["this.x = value"] ["return this.x"] (.fromText "string") rfl rfl rfl).2 rfl⟩

theorem classDataEntries_ok (ds : List DataDecl) (h : ∀ d ∈ ds, d.initializerText ≠ none) :
    classDataEntries ds =
      .ok (ds.map (fun d =>
        createDocumentation (.propAssign d.name (.ident (dataValueText d))) d.jsDocs)) := by
  induction ds with
  | nil => rfl
  | cons d ds ih =>
    obtain ⟨v, hv⟩ : ∃ v, d.initializerText = some v := by
      cases hd : d.initializerText with
      | none => exact absurd hd (h d (by simp))
      | some v => exact ⟨v, rfl⟩
    have ih' := ih (fun x hx => h x (by simp [hx]))
    cases htn : d.typeNodeText with
    | none => simp [classDataEntries, hv, htn, ih', dataValueText]
    | some t => simp [classDataEntries, hv, htn, ih', dataValueText]

theorem classDataEntries_err (ds : List DataDecl) (h : ∃ d ∈ ds, d.initializerText = none) :
    ∃ e, classDataEntries ds = .error e := by
  induction ds with
  | nil => simp at h
  | cons d ds ih =>
    rcases h with ⟨x, hx, hnone⟩
    rcases List.mem_cons.mp hx with rfl | hmem
    · exact ⟨"getInitializerOrThrow", by simp [classDataEntries, hnone]⟩
    · cases hv : d.initializerText with
      | none => exact ⟨"getInitializerOrThrow", by simp [classDataEntries, hv]⟩
      | some v =>
        obtain ⟨e, he⟩ := ih ⟨x, hmem, hnone⟩
        exact ⟨e, by simp [classDataEntries, hv, he]⟩

/-- Claim C7: with at least the well-formedness the code demands, the data
translator emits a single zero-parameter `data` method whose body is one
return statement producing an object literal with exactly one entry per
data field in declaration order, each valued by the initializer text (cast
to the annotated type when present) with documentation reattached; it fails
whenever some data field has no initializer. -/
theorem claim_C7 (ds : List DataDecl) :
    ((∀ d ∈ ds, d.initializerText ≠ none) →
      classDataToObjectData ds =
        .ok (.methodDecl "data" [] none
          [.returnStmt (.objLit (ds.map (fun d =>
            createDocumentation (.propAssign d.name (.ident (dataValueText d)))
              d.jsDocs)))])) ∧
    ((∃ d ∈ ds, d.initializerText = none) → ∃ e, classDataToObjectData ds = .error e) := by
  constructor
  · intro h
    simp [classDataToObjectData, classDataEntries_ok ds h]
  · intro h
    obtain ⟨e, he⟩ := classDataEntries_err ds h
    exact ⟨e, by simp [classDataToObjectData, he]⟩

theorem claim_C7_witness :
    classDataToObjectData [⟨"n", some "1", none, []⟩, ⟨"m", some "2", some "number", []⟩] =
      .ok (.methodDecl "data" [] none
        [.returnStmt (.objLit
          ([⟨"n", some "1", none, []⟩, ⟨"m", some "2", some "number", []⟩].map
            (fun d =>
              createDocumentation (.propAssign d.name (.ident (dataValueText d)))
                d.jsDocs)))]) ∧
    ∃ e, classDataToObjectData [⟨"n", none, none, []⟩] = .error e :=
  ⟨(claim_C7 _).1 (by intro d hd; simp only [List.mem_cons, List.not_mem_nil, or_false] at hd; rcases hd with rfl | rfl <;> simp),
    (claim_C7 _).2 ⟨⟨"n", none, none, []⟩, by simp, rfl⟩⟩

theorem find?_ensureImports (l : List (String × List String)) (m : String) (named : List String) :
    (ensureImports l m named).find? (fun e => e.1 == m) =
      some (m, ensureNames (((l.find? (fun e => e.1 == m)).map Prod.snd).getD []) named) := by
  induction l with
  | nil => simp [ensureImports, ensureNames]
  | cons hd rest ih =>
    obtain ⟨m', ns⟩ := hd
    by_cases hm : m' = m
    · subst hm
      simp [ensureImports, List.find?_cons]
    · simp [ensureImports, hm, List.find?_cons, ih]

theorem moduleNamed_ensure (s : SourceState) (m : String) (named : List String) :
    moduleNamed (ensure s m named) m = ensureNames (moduleNamed s m) named := by
  simp [moduleNamed, ensure, find?_ensureImports]

theorem count_ensureNames_single (ns : List String) (a : String) :
    (ensureNames ns [a]).count a =
      if ns.contains a then ns.count a else ns.count a + 1 := by
  by_cases hm : a ∈ ns
  · have hc : ns.contains a = true := by simpa using hm
    simp [ensureNames, hc, hm, List.count_append]
  · have hc : ns.contains a = false := by simpa using hm
    simp [ensureNames, hc, hm, List.count_append]

theorem vuePropTypeCount_ensure (s : SourceState) :
    vuePropTypeCount (ensure s "vue" ["PropType"]) =
      if vuePropTypeCount s = 0 then 1 else vuePropTypeCount s := by
  unfold vuePropTypeCount
  rw [moduleNamed_ensure, count_ensureNames_single]
  by_cases hm : "PropType" ∈ moduleNamed s "vue"
  · have hc : (moduleNamed s "vue").contains "PropType" = true := by simpa using hm
    have hcnt : (moduleNamed s "vue").count "PropType" ≠ 0 := by
      simpa [List.count_eq_zero] using hm
    simp [hc, hcnt, hm]
  · have hc : (moduleNamed s "vue").contains "PropType" = false := by simpa using hm
    have hcnt : (moduleNamed s "vue").count "PropType" = 0 := by
      simpa [List.count_eq_zero] using hm
    simp [hc, hcnt, hm]

theorem nonPrimitive_eq_false {q : PropModel} (h : nonPrimitive q = false) :
    (q.declaration.type.isString || q.declaration.type.isNumber ||
      q.declaration.type.isBoolean) = true := by
  revert h
  unfold nonPrimitive
  cases (q.declaration.type.isString || q.declaration.type.isNumber ||
    q.declaration.type.isBoolean) <;> simp

theorem nonPrimitive_eq_true {q : PropModel} (h : nonPrimitive q = true) :
    (q.declaration.type.isString || q.declaration.type.isNumber ||
      q.declaration.type.isBoolean) = false := by
  revert h
  unfold nonPrimitive
  cases (q.declaration.type.isString || q.declaration.type.isNumber ||
    q.declaration.type.isBoolean) <;> simp

theorem classPropTypeToObjectPropType_snd (s : SourceState) (p : PropDecl) :
    (classPropTypeToObjectPropType s p).2 =
      if p.type.isString || p.type.isNumber || p.type.isBoolean then s
      else ensure s "vue" ["PropType"] := by
  unfold classPropTypeToObjectPropType
  cases hs : p.type.isString with
  | true => simp [hs]
  | false =>
    cases hn : p.type.isNumber with
    | true => simp [hs, hn]
    | false =>
      cases hb : p.type.isBoolean with
      | true => simp [hs, hn, hb]
      | false =>
        cases ht : p.typeNodeText <;> simp [hs, hn, hb, ht]

theorem classPropToObjectProp_snd (s : SourceState) (p : PropModel) :
    (classPropToObjectProp s p).2 = (classPropTypeToObjectPropType s p.declaration).2 := by
  unfold classPropToObjectProp
  split <;> rename_i heq <;> rw [heq]

theorem classPropsToObjectPropsAux_count (ps : List PropModel) :
    ∀ (s : SourceState) (ms : List TsMember) (s' : SourceState),
      classPropsToObjectPropsAux s ps = (.ok ms, s') →
      (vuePropTypeCount s = 0 →
        vuePropTypeCount s' = if ps.any nonPrimitive then 1 else 0) ∧
      (vuePropTypeCount s = 1 → vuePropTypeCount s' = 1) := by
  induction ps with
  | nil =>
    intro s ms s' h
    simp only [classPropsToObjectPropsAux, Prod.mk.injEq] at h
    rw [← h.2]
    simp
  | cons p ps ih =>
    intro s ms s' h
    unfold classPropsToObjectPropsAux at h
    split at h <;> rename_i heq
    · simp at h
    · rename_i m s1
      split at h <;> rename_i heq2
      · simp at h
      · rename_i ms2 s2
        simp only [Prod.mk.injEq] at h
        obtain ⟨-, h2⟩ := h
        subst h2
        have hs1 : s1 = (classPropTypeToObjectPropType s p.declaration).2 := by
          have := classPropToObjectProp_snd s p
          rw [heq] at this
          exact this
        have htail := ih s1 ms2 _ heq2
        constructor
        · intro h0
          cases hnp : nonPrimitive p with
          | false =>
            have hseq : s1 = s := by
              rw [hs1, classPropTypeToObjectPropType_snd,
                if_pos (nonPrimitive_eq_false hnp)]
            rw [hseq] at htail
            have := htail.1 h0
            simpa [hnp] using this
          | true =>
            have hens : s1 = ensure s "vue" ["PropType"] := by
              rw [hs1, classPropTypeToObjectPropType_snd,
                if_neg (by simp [nonPrimitive_eq_true hnp])]
            have hone : vuePropTypeCount s1 = 1 := by
              rw [hens, vuePropTypeCount_ensure, if_pos h0]
            have := htail.2 hone
            simpa [hnp] using this
        · intro h1
          cases hnp : nonPrimitive p with
          | false =>
            have hseq : s1 = s := by
              rw [hs1, classPropTypeToObjectPropType_snd,
                if_pos (nonPrimitive_eq_false hnp)]
            rw [hseq] at htail
            exact htail.2 h1
          | true =>
            have hens : s1 = ensure s "vue" ["PropType"] := by
              rw [hs1, classPropTypeToObjectPropType_snd,
                if_neg (by simp [nonPrimitive_eq_true hnp])]
            have hone : vuePropTypeCount s1 = 1 := by
              rw [hens, vuePropTypeCount_ensure, if_neg (by simp [h1]), h1]
            exact htail.2 hone

/-- Claim C1: for every prop, the emitted `type` entry is the bare
`String`/`Number`/`Boolean` identifier when the semantic type is one of the
three primitives (never the wrapped form), and otherwise the entry is
`Base as PropType<T>` carrying the annotation text T verbatim, with base
`Function` iff the type has a call signature, `Array` iff the text starts
with `Array<` or ends with `[]`, and `Object` otherwise, while the
`PropType` named import from `vue` is ensured in the unit, exactly once
even when several such props exist. -/
theorem claim_C1 (s : SourceState) (p : PropDecl) (t : String) :
    (p.type.isString = true →
      classPropTypeToObjectPropType s p =
        (.ok (.propAssign "type" (.ident "String")), s)) ∧
    (p.type.isString = false → p.type.isNumber = true →
      classPropTypeToObjectPropType s p =
        (.ok (.propAssign "type" (.ident "Number")), s)) ∧
    (p.type.isString = false → p.type.isNumber = false → p.type.isBoolean = true →
      classPropTypeToObjectPropType s p =
        (.ok (.propAssign "type" (.ident "Boolean")), s)) ∧
    (p.type.isString = false → p.type.isNumber = false → p.type.isBoolean = false →
      p.typeNodeText = some t →
      classPropTypeToObjectPropType s p =
        (.ok (.propAssign "type"
          (.ident
            ((if p.type.callSignatureCount > 0 then "Function"
              else if strStartsWith t "Array<" || strEndsWith t "[]" then "Array"
              else "Object") ++ " as PropType<" ++ t ++ ">"))),
        ensure s "vue" ["PropType"])) ∧
    (∀ (props : List PropModel) (ms : List TsMember) (s' : SourceState),
      vuePropTypeCount s = 0 →
      classPropsToObjectPropsAux s props = (.ok ms, s') →
      vuePropTypeCount s' = if props.any nonPrimitive then 1 else 0) := by
  refine ⟨?_, ?_, ?_, ?_, ?_⟩
  · intro h
    simp [classPropTypeToObjectPropType, h]
  · intro h1 h2
    simp [classPropTypeToObjectPropType, h1, h2]
  · intro h1 h2 h3
    simp [classPropTypeToObjectPropType, h1, h2, h3]
  · intro h1 h2 h3 h4
    simp [classPropTypeToObjectPropType, h1, h2, h3, h4]
  · intro props ms s' h0 h
    exact (classPropsToObjectPropsAux_count props s ms s' h).1 h0

theorem claim_C1_witness :
    classPropTypeToObjectPropType emptySource propXDecl =
      (.ok (.propAssign "type" (.ident "String")), emptySource) ∧
    classPropTypeToObjectPropType emptySource
        ⟨"x", ⟨false, false, false, 0⟩, some "MyInterface", []⟩ =
      (.ok (.propAssign "type" (.ident "Object as PropType<MyInterface>")),
        ensure emptySource "vue" ["PropType"]) ∧
    vuePropTypeCount ⟨[("vue", ["PropType"])], true, [], 0⟩ = 1 := by
  refine ⟨(claim_C1 emptySource propXDecl "").1 rfl, ?_, ?_⟩
  · rw [(claim_C1 emptySource ⟨"x", ⟨false, false, false, 0⟩, some "MyInterface", []⟩
      "MyInterface").2.2.2.1 rfl rfl rfl rfl]
    rfl
  · exact ((claim_C1 emptySource propXDecl "").2.2.2.2
      [⟨⟨"x", ⟨false, false, false, 0⟩, some "T", []⟩, none, none⟩]
      [.propAssign "x"
        (.objLit
          [.propAssign "type" (.ident "Object as PropType<T>"),
            .propAssign "required" .falseLit])]
      ⟨[("vue", ["PropType"])], true, [], 0⟩ rfl rfl).trans rfl

theorem classPropsToObjectProps_ok {s : SourceState} {ps : List PropModel}
    {m : TsMember} {s' : SourceState}
    (h : classPropsToObjectProps s ps = (.ok m, s')) :
    ∃ ms, m = .propAssign "props" (.objLit ms) := by
  unfold classPropsToObjectProps at h
  split at h <;> rename_i heq
  · simp at h
  · rename_i ms s1
    simp only [Prod.mk.injEq, Except.ok.injEq] at h
    exact ⟨ms, h.1.symm⟩

theorem classDataToObjectData_ok {ds : List DataDecl} {m : TsMember}
    (h : classDataToObjectData ds = .ok m) :
    ∃ ps, m = .methodDecl "data" [] none [.returnStmt (.objLit ps)] := by
  unfold classDataToObjectData at h
  split at h <;> rename_i heq
  · simp at h
  · rename_i props
    simp only [Except.ok.injEq] at h
    exact ⟨props, h.symm⟩

theorem classComputedToObjectComputed_ok {cs : List (String × ComputedPair)}
    {m : TsMember} {logs : List String}
    (h : classComputedToObjectComputed cs = .ok (m, logs)) :
    ∃ ms, m = .propAssign "computed" (.objLit ms) := by
  unfold classComputedToObjectComputed at h
  split at h <;> rename_i heq
  · simp at h
  · rename_i props logs'
    simp only [Except.ok.injEq, Prod.mk.injEq] at h
    exact ⟨props, h.1.symm⟩

/-- Claim C5: a successful transformation adds one export whose expression
is a single factory call `Vue.extend` taking exactly one object-literal
argument whose entries are, in order: the `name` entry, the passthrough
entries in original order, a `props` entry only if there is at least one
prop, a `data` entry only if there is at least one data field, and a
`computed` entry only if the computed mapping is non-empty. -/
theorem claim_C5 (s s' : SourceState) (vue : VueModel)
    (h : classToObject s (some vue) = (.ok (), s')) :
    ∃ (n : String) (e : ExportAssignment) (pe de ce : List TsMember),
      vue.declaration.name = some n ∧
      s'.exports = s.exports ++ [e] ∧
      e.expression =
        .callExpr (.ident "Vue.extend")
          [.objLit (.propAssign "name" (.strLit n) ::
            (vue.decoratorProperties ++ pe ++ de ++ ce))] ∧
      ((vue.props = [] ∧ pe = []) ∨
        (vue.props ≠ [] ∧ ∃ ms, pe = [.propAssign "props" (.objLit ms)])) ∧
      ((vue.data = [] ∧ de = []) ∨
        (vue.data ≠ [] ∧
          ∃ ds, de = [.methodDecl "data" [] none [.returnStmt (.objLit ds)]])) ∧
      ((vue.computed = [] ∧ ce = []) ∨
        (vue.computed ≠ [] ∧ ∃ ms, ce = [.propAssign "computed" (.objLit ms)])) := by
  simp only [classToObject] at h
  split at h <;> rename_i hname
  · simp at h
  · rename_i nameEntry
    obtain ⟨n, hn, hne⟩ : ∃ n, vue.declaration.name = some n ∧
        nameEntry = .propAssign "name" (.strLit n) := by
      unfold classNameToPropName at hname
      split at hname
      · simp at hname
      · rename_i n hn
        simp only [Except.ok.injEq] at hname
        exact ⟨n, hn, hname.symm⟩
    subst hne
    split at h <;> rename_i hstep1
    · simp at h
    · rename_i propsEntries s1
      have hprops : (vue.props = [] ∧ propsEntries = [] ∧ s1 = s) ∨
          (vue.props ≠ [] ∧ sameUnitShape s s1 ∧
            ∃ ms, propsEntries = [.propAssign "props" (.objLit ms)]) := by
        by_cases hp : vue.props.length > 0
        · rw [if_pos hp] at hstep1
          right
          refine ⟨by
            intro hnil
            rw [hnil] at hp
            simp at hp, ?_⟩
          split at hstep1 <;> rename_i heqp
          · simp at hstep1
          · rename_i m s2
            simp only [Prod.mk.injEq, Except.ok.injEq] at hstep1
            obtain ⟨hm, hs2⟩ := hstep1
            obtain ⟨ms, hms⟩ := classPropsToObjectProps_ok heqp
            refine ⟨?_, ⟨ms, by rw [← hm, hms]⟩⟩
            have := classPropsToObjectProps_shape s vue.props
            rw [heqp] at this
            rw [← hs2]
            exact this
        · rw [if_neg hp] at hstep1
          left
          simp only [Prod.mk.injEq, Except.ok.injEq] at hstep1
          have hnil : vue.props = [] :=
            List.eq_nil_of_length_eq_zero (Nat.eq_zero_of_not_pos hp)
          exact ⟨hnil, hstep1.1.symm, hstep1.2.symm⟩
      split at h <;> rename_i hstep2
      · simp at h
      · rename_i dataEntries
        have hdata : (vue.data = [] ∧ dataEntries = []) ∨
            (vue.data ≠ [] ∧
              ∃ ds, dataEntries = [.methodDecl "data" [] none [.returnStmt (.objLit ds)]]) := by
          by_cases hd : vue.data.length > 0
          · rw [if_pos hd] at hstep2
            right
            refine ⟨by
              intro hnil
              rw [hnil] at hd
              simp at hd, ?_⟩
            split at hstep2 <;> rename_i heqd
            · simp at hstep2
            · rename_i m
              simp only [Except.ok.injEq] at hstep2
              obtain ⟨ds, hds⟩ := classDataToObjectData_ok heqd
              exact ⟨ds, by rw [← hstep2, hds]⟩
          · rw [if_neg hd] at hstep2
            left
            simp only [Except.ok.injEq] at hstep2
            have hnil : vue.data = [] :=
              List.eq_nil_of_length_eq_zero (Nat.eq_zero_of_not_pos hd)
            exact ⟨hnil, hstep2.symm⟩
        split at h <;> rename_i hstep3
        · simp at h
        · rename_i computedEntries
          have hcomp : (vue.computed = [] ∧ computedEntries = []) ∨
              (vue.computed ≠ [] ∧
                ∃ ms, computedEntries = [.propAssign "computed" (.objLit ms)]) := by
            by_cases hc : vue.computed.length > 0
            · rw [if_pos hc] at hstep3
              right
              refine ⟨by
                intro hnil
                rw [hnil] at hc
                simp at hc, ?_⟩
              split at hstep3 <;> rename_i heqc
              · simp at hstep3
              · rename_i m logs
                simp only [Except.ok.injEq] at hstep3
                obtain ⟨ms, hms⟩ := classComputedToObjectComputed_ok heqc
                exact ⟨ms, by rw [← hstep3, hms]⟩
            · rw [if_neg hc] at hstep3
              left
              simp only [Except.ok.injEq] at hstep3
              have hnil : vue.computed = [] :=
                List.eq_nil_of_length_eq_zero (Nat.eq_zero_of_not_pos hc)
              exact ⟨hnil, hstep3.symm⟩
          simp only [Prod.mk.injEq] at h
          obtain ⟨-, hs'⟩ := h
          have hexp1 : s1.exports = s.exports := by
            rcases hprops with ⟨-, -, rfl⟩ | ⟨-, hsh, -⟩
            · rfl
            · exact hsh.2.1
          refine ⟨n,
            ⟨.callExpr (.ident "Vue.extend")
                [.objLit (.propAssign "name" (.strLit n) ::
                  (vue.decoratorProperties ++ propsEntries ++ dataEntries ++ computedEntries))],
              false, vue.declaration.jsDocs.head?.map (fun doc => doc.fullText)⟩,
            propsEntries, dataEntries, computedEntries, hn, ?_, rfl, ?_, hdata, hcomp⟩
          · rw [← hs']
            simp [hexp1]
          · rcases hprops with ⟨h1, h2, -⟩ | ⟨h1, -, h2⟩
            · exact Or.inl ⟨h1, h2⟩
            · exact Or.inr ⟨h1, h2⟩

/-- A fully translatable component model: name, one passthrough entry, one
string prop, one data field, one getter-only computed property. -/
def vueW : VueModel :=
  ⟨⟨some "A", []⟩,
    [.propAssign "ptKey" (.ident "ptVal")],
    [⟨propXDecl, none, none⟩],
    [⟨"n", some "1", none, []⟩],
    [("c", ⟨some getterTyped, none⟩)]⟩

theorem claim_C5_witness :
    ∃ (n : String) (e : ExportAssignment) (pe de ce : List TsMember),
      vueW.declaration.name = some n ∧
      (classToObject emptySource (some vueW)).2.exports = emptySource.exports ++ [e] ∧
      e.expression =
        .callExpr (.ident "Vue.extend")
          [.objLit (.propAssign "name" (.strLit n) ::
            (vueW.decoratorProperties ++ pe ++ de ++ ce))] ∧
      ((vueW.props = [] ∧ pe = []) ∨
        (vueW.props ≠ [] ∧ ∃ ms, pe = [.propAssign "props" (.objLit ms)])) ∧
      ((vueW.data = [] ∧ de = []) ∨
        (vueW.data ≠ [] ∧
          ∃ ds, de = [.methodDecl "data" [] none [.returnStmt (.objLit ds)]])) ∧
      ((vueW.computed = [] ∧ ce = []) ∨
        (vueW.computed ≠ [] ∧ ∃ ms, ce = [.propAssign "computed" (.objLit ms)])) :=
  claim_C5 emptySource (classToObject emptySource (some vueW)).2 vueW rfl

theorem step1_shape (s s1 : SourceState) (vue : VueModel)
    {res : Except String (List TsMember)}
    (h : (if vue.props.length > 0 then
        match classPropsToObjectProps s vue.props with
        | (.error e, s') => (.error e, s')
        | (.ok m, s') => (.ok [m], s')
      else ((.ok [], s) : Except String (List TsMember) × SourceState)) = (res, s1)) :
    sameUnitShape s s1 := by
  by_cases hp : vue.props.length > 0
  · rw [if_pos hp] at h
    split at h <;> rename_i heqp <;>
      (simp only [Prod.mk.injEq] at h
       have hsh := classPropsToObjectProps_shape s vue.props
       rw [heqp] at hsh
       rw [← h.2]
       exact hsh)
  · rw [if_neg hp] at h
    simp only [Prod.mk.injEq] at h
    rw [← h.2]
    exact sameUnitShape_refl s

/-- Claim C6, amended: a failing transformation never performs any part of
the declaration-to-export replacement — the original declaration is still
present, no export has been added, and no reformatting has happened — while
a successful transformation on an extracted model removes the declaration
and adds exactly one export; however, a failing transformation does not
necessarily leave the unit in its original state, because named imports
ensured before the failure point remain. -/
theorem claim_C6 (s : SourceState) (extracted : Option VueModel) :
    (∀ e s', classToObject s extracted = (.error e, s') →
      s'.classPresent = s.classPresent ∧ s'.exports = s.exports ∧
        s'.formatCount = s.formatCount) ∧
    (∀ s', classToObject s extracted = (.ok (), s') →
      s' = s ∨ (s'.classPresent = false ∧ ∃ ex, s'.exports = s.exports ++ [ex])) := by
  constructor
  · intro e s' h
    cases extracted with
    | none => simp [classToObject] at h
    | some vue =>
      simp only [classToObject] at h
      split at h <;> rename_i hname
      · simp only [Prod.mk.injEq, Except.error.injEq] at h
        rw [← h.2]
        exact ⟨rfl, rfl, rfl⟩
      · rename_i nameEntry
        split at h <;> rename_i hstep1
        · rename_i e1 s1
          simp only [Prod.mk.injEq, Except.error.injEq] at h
          have hshape := step1_shape s s1 vue hstep1
          rw [← h.2]
          exact hshape
        · rename_i propsEntries s1
          have hshape := step1_shape s s1 vue hstep1
          split at h <;> rename_i hstep2
          · simp only [Prod.mk.injEq, Except.error.injEq] at h
            rw [← h.2]
            exact hshape
          · split at h <;> rename_i hstep3
            · simp only [Prod.mk.injEq, Except.error.injEq] at h
              rw [← h.2]
              exact hshape
            · simp at h
  · intro s' h
    cases extracted with
    | none =>
      left
      simp only [classToObject, Prod.mk.injEq] at h
      exact h.2.symm
    | some vue =>
      right
      simp only [classToObject] at h
      split at h <;> rename_i hname
      · simp at h
      · rename_i nameEntry
        split at h <;> rename_i hstep1
        · simp at h
        · rename_i propsEntries s1
          have hshape := step1_shape s s1 vue hstep1
          split at h <;> rename_i dataEntries hstep2
          · simp at h
          · split at h <;> rename_i computedEntries hstep3
            · simp at h
            · simp only [Prod.mk.injEq] at h
              obtain ⟨-, hs'⟩ := h
              rw [← hs']
              refine ⟨rfl,
                ⟨⟨.callExpr (.ident "Vue.extend")
                    [.objLit (nameEntry ::
                      (vue.decoratorProperties ++ propsEntries ++ dataEntries ++
                        computedEntries))],
                  false, vue.declaration.jsDocs.head?.map (fun doc => doc.fullText)⟩, ?_⟩⟩
              simp only [hshape.2.1]

/-- A component model with a single non-primitive, unannotated prop: the
props translator ensures the `PropType` import and then throws. -/
def cexVue : VueModel :=
  ⟨⟨some "A", []⟩, [], [⟨⟨"x", ⟨false, false, false, 0⟩, none, []⟩, none, none⟩], [], []⟩

theorem claim_C6_counterexample :
    (classToObject emptySource (some cexVue)).1 = .error "getTypeNodeOrThrow" ∧
    (classToObject emptySource (some cexVue)).2.namedImports ≠ emptySource.namedImports ∧
    (classToObject emptySource (some cexVue)).2.classPresent = emptySource.classPresent ∧
    (classToObject emptySource (some cexVue)).2.exports = emptySource.exports :=
  ⟨rfl, by decide, rfl, rfl⟩

theorem claim_C6_witness :
    SourceState.classPresent ⟨[("vue", ["PropType"])], true, [], 0⟩ = emptySource.classPresent ∧
    SourceState.exports ⟨[("vue", ["PropType"])], true, [], 0⟩ = emptySource.exports ∧
    SourceState.formatCount ⟨[("vue", ["PropType"])], true, [], 0⟩ = emptySource.formatCount :=
  (claim_C6 emptySource (some cexVue)).1 "getTypeNodeOrThrow"
    ⟨[("vue", ["PropType"])], true, [], 0⟩ rfl

end VueDeclassify
